import Mathlib

/-!
Verification of the OpenTofu deployment plugin (pipecd repository).

This file shallowly embeds the plugin's pure planning functions
(`determineVersions`, `determineStrategy`, `buildQuickSyncStages`,
`buildPipelineSyncStages`, `fetchDefinedStages`), the tool registry wrapper
(`Registry.OpenTofu`), the livestate reconciliation of `GetDiff`, and the two
variants of `executeStage` found in the sources (the
`deployment/plan.go` variant and the metadata-file variant), and proves the
spec's claims about them.

Go `string` is modelled as `String`, `int32` stage indices as `Int`,
`map[string]string` metadata as association lists, and `error` returns as
`Except String`.  External effects of `executeStage` (tool installation,
command execution, filesystem probes) are modelled by an explicit environment
of response functions plus a trace of emitted events.
-/

namespace OpenTofuProof

/-- Stage name constant from deployment/plan.go. -/
def stageOpenTofuPlan : String := "OPEN_TOFU_PLAN"

/-- Stage name constant from deployment/plan.go. -/
def stageOpenTofuApply : String := "OPEN_TOFU_APPLY"

/-- sdk.SyncStrategy values. -/
inductive SyncStrategy where
  | quickSync
  | pipelineSync
deriving DecidableEq, Repr

/-- sdk.ArtifactKind values (only the one used by this plugin). -/
inductive ArtifactKind where
  | terraformModule
deriving DecidableEq, Repr

/-- sdk.ManualOperation values (only the one used by this plugin). -/
inductive ManualOperation where
  | opNone
deriving DecidableEq, Repr

/-- sdk.ArtifactVersion. -/
structure ArtifactVersion where
  kind : ArtifactKind
  version : String
  name : String
  url : String
deriving DecidableEq, Repr

/-- The fields of sdk.DeploymentSource read by `determineVersions`. -/
structure DeploymentSource where
  commitHash : String
  applicationDirectory : String
deriving DecidableEq, Repr

/-- Embeds `determineVersions` from deployment/plan.go: version is "v1",
overwritten with "v1-<commit hash>" when the commit hash is non-empty; the
single artifact's name and url are the application directory. -/
def determineVersions (src : DeploymentSource) : List ArtifactVersion :=
  let version := if src.commitHash ≠ "" then "v1-" ++ src.commitHash else "v1"
  [{ kind := ArtifactKind.terraformModule
     version := version
     name := src.applicationDirectory
     url := src.applicationDirectory }]

/-- sdk.DetermineStrategyResponse. -/
structure DetermineStrategyResponse where
  strategy : SyncStrategy
  summary : String
deriving DecidableEq, Repr

/-- Embeds `determineStrategy` from deployment/plan.go: a constant function
(the Go function takes no input at all). -/
def determineStrategy : DetermineStrategyResponse :=
  { strategy := SyncStrategy.quickSync
    summary := "Using QUICK_SYNC strategy for OpenTofu deployment" }

/-- sdk.QuickSyncStage. -/
structure QuickSyncStage where
  name : String
  description : String
  rollback : Bool
  metadata : List (String × String)
  availableOperation : ManualOperation
deriving DecidableEq, Repr

/-- Embeds `buildQuickSyncStages` from deployment/plan.go. -/
def buildQuickSyncStages : List QuickSyncStage :=
  [ { name := stageOpenTofuPlan
      description := "Plan OpenTofu changes"
      rollback := false
      metadata := [("command", "plan")]
      availableOperation := ManualOperation.opNone }
  , { name := stageOpenTofuApply
      description := "Apply OpenTofu changes"
      rollback := false
      metadata := [("command", "apply")]
      availableOperation := ManualOperation.opNone } ]

/-- sdk.StageConfig: one user-declared (index, name) pair. -/
structure StageConfig where
  index : Int
  name : String
deriving DecidableEq, Repr

/-- sdk.PipelineStage. -/
structure PipelineStage where
  index : Int
  name : String
  rollback : Bool
  metadata : List (String × String)
  availableOperation : ManualOperation
deriving DecidableEq, Repr

/-- sdk.BuildPipelineSyncStagesRequest: the requested stages and the
rollback flag. -/
structure BuildPipelineSyncStagesRequest where
  stages : List StageConfig
  rollback : Bool
deriving DecidableEq, Repr

/-- Embeds the loop body of `buildPipelineSyncStages`: the stage record
appended for one requested stage. -/
def toPipelineStage (s : StageConfig) : PipelineStage :=
  { index := s.index
    name := s.name
    rollback := false
    metadata := []
    availableOperation := ManualOperation.opNone }

/-- Embeds `buildPipelineSyncStages` from deployment/plan.go: a Go
slice-append loop over the requested stages, modelled as a left fold that
appends one converted record per iteration.  Note the function reads neither
the rollback flag nor anything else of the request beyond the stage list. -/
def buildPipelineSyncStages (input : BuildPipelineSyncStagesRequest) : List PipelineStage :=
  input.stages.foldl (fun acc s => acc ++ [toPipelineStage s]) []

/-- Embeds `fetchDefinedStages` from deployment/plan.go. -/
def fetchDefinedStages : List String :=
  [stageOpenTofuPlan, stageOpenTofuApply]

/-- A Go loop `for _, a := range l { acc = append(acc, f(a)) }` is the map of
the loop body over the list, after the initial accumulator. -/
theorem foldl_append_map {α β : Type} (f : α → β) (l : List α) (init : List β) :
    l.foldl (fun acc a => acc ++ [f a]) init = init ++ l.map f := by
  induction l generalizing init with
  | nil => simp
  | cons a l ih => simp [List.foldl_cons, ih]

/-- A Go loop that conditionally appends (skipping `none` results,
expressed by appending the `toList` of the produced option) is the
`filterMap` of the loop body over the list, after the initial accumulator. -/
theorem foldl_append_filterMap {α β : Type} (f : α → Option β) (l : List α) (init : List β) :
    l.foldl (fun acc a => acc ++ (f a).toList) init = init ++ l.filterMap f := by
  induction l generalizing init with
  | nil => simp
  | cons a l ih =>
    cases h : f a with
    | none => simp [List.foldl_cons, h, ih]
    | some b => simp [List.foldl_cons, h, ih]

theorem buildPipelineSyncStages_eq_map (input : BuildPipelineSyncStagesRequest) :
    buildPipelineSyncStages input = input.stages.map toPipelineStage := by
  simpa using foldl_append_map toPipelineStage input.stages []

/-- Claim C1 (counterexample): on the spec's own example input
`[{0,"S1"},{1,"S2"}]` with rollback enabled, `buildPipelineSyncStages`
returns exactly the two forward stages and appends no stage with the
rollback flag set: the output has length 2, not 3, and contains no
rollback stage. -/
theorem buildPipelineSyncStages_no_rollback_cex :
    buildPipelineSyncStages
        { stages := [{ index := 0, name := "S1" }, { index := 1, name := "S2" }]
          rollback := true }
      = [ { index := 0, name := "S1", rollback := false, metadata := []
            availableOperation := ManualOperation.opNone }
        , { index := 1, name := "S2", rollback := false, metadata := []
            availableOperation := ManualOperation.opNone } ]
    ∧ ∀ st ∈ buildPipelineSyncStages
        { stages := [{ index := 0, name := "S1" }, { index := 1, name := "S2" }]
          rollback := true }, st.rollback = false := by
  constructor
  · rfl
  · intro st hst
    fin_cases hst <;> rfl

/-- Claim C1 (amended): for every request, regardless of the rollback flag,
`buildPipelineSyncStages` returns exactly one stage per requested stage, in
the caller's order, preserving each (index, name) pair, with rollback=false
and empty metadata; no rollback stage is appended. -/
theorem buildPipelineSyncStages_spec (input : BuildPipelineSyncStagesRequest) :
    buildPipelineSyncStages input
      = input.stages.map (fun s =>
          { index := s.index
            name := s.name
            rollback := false
            metadata := []
            availableOperation := ManualOperation.opNone }) := by
  simpa [toPipelineStage] using buildPipelineSyncStages_eq_map input

/-- Claim C6: `determineVersions` returns exactly one artifact version; its
version string is "v1-" followed by the commit hash when the commit hash is
non-empty and "v1" when it is empty, and its name and url both equal the
source's application directory. -/
theorem determineVersions_spec (src : DeploymentSource) :
    determineVersions src
      = [{ kind := ArtifactKind.terraformModule
           version := if src.commitHash = "" then "v1" else "v1-" ++ src.commitHash
           name := src.applicationDirectory
           url := src.applicationDirectory }] := by
  by_cases h : src.commitHash = "" <;> simp [determineVersions, h]

/-- Claim C9: `determineStrategy` is a constant function of no input: the
strategy is always QUICK_SYNC with the fixed summary string, so no input can
select PIPELINE_SYNC. -/
theorem determineStrategy_spec :
    determineStrategy.strategy = SyncStrategy.quickSync
    ∧ determineStrategy.summary = "Using QUICK_SYNC strategy for OpenTofu deployment"
    ∧ determineStrategy.strategy ≠ SyncStrategy.pipelineSync := by
  refine ⟨rfl, rfl, ?_⟩
  decide

/-- A livestate `Resource`: an address plus an attribute map.  The attribute
map (Go `map[string]interface{}` decoded from JSON) is kept abstract as a
type `V` with decidable equality; `reflect.DeepEqual` is deep value equality
on such decoded values (JSON cannot encode NaN, so this equality is
reflexive on every reachable value). -/
structure Resource (V : Type) where
  address : String
  values : V
deriving DecidableEq, Repr

/-- One classified entry of the change list built by `GetDiff`, carrying the
same payload fields as the Go change maps. -/
inductive Change (V : Type) where
  | create (address : String) (resource : Resource V)
  | update (address : String) (current desired : V)
  | delete (address : String) (resource : Resource V)
deriving DecidableEq, Repr

/-- True exactly on `create` entries. -/
def Change.isCreate {V : Type} : Change V → Bool
  | .create _ _ => true
  | _ => false

/-- True exactly on `update` entries. -/
def Change.isUpdate {V : Type} : Change V → Bool
  | .update _ _ _ => true
  | _ => false

/-- True exactly on `delete` entries. -/
def Change.isDelete {V : Type} : Change V → Bool
  | .delete _ _ => true
  | _ => false

/-- The inner scan of `GetDiff`'s first loop: find the first resource in the
current state whose address matches (the Go loop breaks on the first hit). -/
def findByAddress {V : Type} (rs : List (Resource V)) (addr : String) : Option (Resource V) :=
  rs.find? (fun r => r.address == addr)

/-- The body of `GetDiff`'s first loop for one desired resource: absent from
the current state means `create`; present with unequal attribute maps means
`update` (carrying both maps); present and equal contributes nothing. -/
def classifyDesired {V : Type} [DecidableEq V] (current : List (Resource V))
    (d : Resource V) : Option (Change V) :=
  match findByAddress current d.address with
  | none => some (Change.create d.address d)
  | some c =>
    if c.values = d.values then none
    else some (Change.update d.address c.values d.values)

/-- The body of `GetDiff`'s second loop for one current resource: absent
from the desired state means `delete`; present contributes nothing. -/
def classifyCurrent {V : Type} (desired : List (Resource V))
    (c : Resource V) : Option (Change V) :=
  if desired.any (fun d => d.address == c.address) then none
  else some (Change.delete c.address c)

/-- Embeds the change computation of `GetDiff` (livestate/plugin.go): a
single `changes` slice is filled by a loop over the desired resources and
then a loop over the current (live) resources, each appending its
classification when one is produced. -/
def getDiffChanges {V : Type} [DecidableEq V] (current desired : List (Resource V)) :
    List (Change V) :=
  current.foldl
    (fun acc c => acc ++ (classifyCurrent desired c).toList)
    (desired.foldl
      (fun acc d => acc ++ (classifyDesired current d).toList) [])

/-- The two append loops of `GetDiff` compute the `filterMap` of their loop
bodies, concatenated in loop order. -/
theorem getDiffChanges_eq {V : Type} [DecidableEq V] (current desired : List (Resource V)) :
    getDiffChanges current desired
      = desired.filterMap (classifyDesired current)
        ++ current.filterMap (classifyCurrent desired) := by
  unfold getDiffChanges
  rw [foldl_append_filterMap, foldl_append_filterMap]
  simp

/-- If the loop body is `some` of a function everywhere on the list, the
conditional-append loop degenerates to a map. -/
theorem filterMap_eq_map_of_some {α β : Type} (f : α → Option β) (g : α → β)
    (l : List α) (h : ∀ a ∈ l, f a = some (g a)) : l.filterMap f = l.map g := by
  induction l with
  | nil => rfl
  | cons a l ih =>
    rw [List.filterMap_cons, h a (List.mem_cons_self a l), List.map_cons,
      ih (fun x hx => h x (List.mem_cons_of_mem a hx))]

/-- With disjoint address sets every desired resource classifies as
`create`. -/
theorem classifyDesired_of_disjoint {V : Type} [DecidableEq V]
    (current desired : List (Resource V))
    (hdisj : ∀ c ∈ current, ∀ d ∈ desired, c.address ≠ d.address) :
    desired.filterMap (classifyDesired current)
      = desired.map (fun d => Change.create d.address d) := by
  refine filterMap_eq_map_of_some _ _ _ (fun d hd => ?_)
  have hnone : findByAddress current d.address = none := by
    rw [findByAddress, List.find?_eq_none]
    intro r hr
    simpa using hdisj r hr d hd
  simp [classifyDesired, hnone]

/-- With disjoint address sets every live resource classifies as
`delete`. -/
theorem classifyCurrent_of_disjoint {V : Type}
    (current desired : List (Resource V))
    (hdisj : ∀ c ∈ current, ∀ d ∈ desired, c.address ≠ d.address) :
    current.filterMap (classifyCurrent desired)
      = current.map (fun c => Change.delete c.address c) := by
  refine filterMap_eq_map_of_some _ _ _ (fun c hc => ?_)
  have hfalse : desired.any (fun d => d.address == c.address) = false := by
    rw [List.any_eq_false]
    intro d hd
    simpa using (hdisj c hc d hd).symm
  simp [classifyCurrent, hfalse]

/-- Claim C3: for live snapshot `current` and desired snapshot `desired`
with disjoint address sets, the change computation of `GetDiff` yields
exactly `current.length` delete entries, `desired.length` create entries,
and zero update entries. -/
theorem getDiffChanges_disjoint_counts {V : Type} [DecidableEq V]
    (current desired : List (Resource V))
    (hdisj : ∀ c ∈ current, ∀ d ∈ desired, c.address ≠ d.address) :
    (getDiffChanges current desired).countP Change.isDelete = current.length
    ∧ (getDiffChanges current desired).countP Change.isCreate = desired.length
    ∧ (getDiffChanges current desired).countP Change.isUpdate = 0 := by
  rw [getDiffChanges_eq, classifyDesired_of_disjoint current desired hdisj,
    classifyCurrent_of_disjoint current desired hdisj]
  simp [List.countP_append, List.countP_map, Function.comp_def,
    Change.isCreate, Change.isUpdate, Change.isDelete, List.countP_eq_length]

/-- Claim C3 witness: concrete disjoint snapshots. -/
theorem getDiffChanges_disjoint_counts_witness :
    (getDiffChanges [Resource.mk "a" (1 : Nat), Resource.mk "b" 2]
        [Resource.mk "c" (3 : Nat)]).countP Change.isDelete = 2
    ∧ (getDiffChanges [Resource.mk "a" (1 : Nat), Resource.mk "b" 2]
        [Resource.mk "c" (3 : Nat)]).countP Change.isCreate = 1
    ∧ (getDiffChanges [Resource.mk "a" (1 : Nat), Resource.mk "b" 2]
        [Resource.mk "c" (3 : Nat)]).countP Change.isUpdate = 0 :=
  getDiffChanges_disjoint_counts _ _ (by decide)

/-- Claim C4: the change list is exactly the create/update entries
discovered while scanning the desired snapshot, in desired-snapshot order,
followed by the delete entries discovered while scanning the live snapshot,
in live-snapshot order: the first block contains only create/update entries
and the second only delete entries. -/
theorem getDiffChanges_order {V : Type} [DecidableEq V]
    (current desired : List (Resource V)) :
    getDiffChanges current desired
      = desired.filterMap (classifyDesired current)
        ++ current.filterMap (classifyCurrent desired)
    ∧ (∀ ch ∈ desired.filterMap (classifyDesired current),
        ch.isCreate = true ∨ ch.isUpdate = true)
    ∧ (∀ ch ∈ current.filterMap (classifyCurrent desired), ch.isDelete = true) := by
  refine ⟨getDiffChanges_eq current desired, ?_, ?_⟩
  · intro ch hch
    obtain ⟨d, _, hd⟩ := List.mem_filterMap.mp hch
    rcases hfind : findByAddress current d.address with _ | c
    · simp only [classifyDesired, hfind, Option.some.injEq] at hd
      subst hd
      left
      rfl
    · simp only [classifyDesired, hfind] at hd
      by_cases hv : c.values = d.values
      · simp [hv] at hd
      · rw [if_neg hv, Option.some.injEq] at hd
        subst hd
        right
        rfl
  · intro ch hch
    obtain ⟨c, _, hc⟩ := List.mem_filterMap.mp hch
    cases hex : desired.any (fun d => d.address == c.address) with
    | true => simp [classifyCurrent, hex] at hc
    | false =>
      simp only [classifyCurrent, hex, Bool.false_eq_true, if_false,
        Option.some.injEq] at hc
      subst hc
      rfl

/-- Claim C4 witness: the characterization evaluated on concrete
snapshots. -/
theorem getDiffChanges_order_witness :
    getDiffChanges [Resource.mk "a" (1 : Nat), Resource.mk "b" 2]
        [Resource.mk "b" (9 : Nat), Resource.mk "c" 3]
      = ([Resource.mk "b" (9 : Nat), Resource.mk "c" 3].filterMap
          (classifyDesired [Resource.mk "a" (1 : Nat), Resource.mk "b" 2]))
        ++ ([Resource.mk "a" (1 : Nat), Resource.mk "b" 2].filterMap
          (classifyCurrent [Resource.mk "b" (9 : Nat), Resource.mk "c" 3])) :=
  (getDiffChanges_order _ _).1

/-- Claim C5: reconciling a snapshot against itself yields an empty change
list, provided addresses are unique within the snapshot. -/
theorem getDiffChanges_self {V : Type} [DecidableEq V] (A : List (Resource V))
    (h : (A.map Resource.address).Nodup) : getDiffChanges A A = [] := by
  rw [getDiffChanges_eq]
  have h1 : A.filterMap (classifyDesired A) = [] := by
    rw [List.filterMap_eq_nil_iff]
    intro d hd
    have hsome : (A.find? (fun r => r.address == d.address)).isSome := by
      rw [List.find?_isSome]
      exact ⟨d, hd, by simp⟩
    rcases hfind : A.find? (fun r => r.address == d.address) with _ | r
    · rw [hfind] at hsome
      simp at hsome
    · have hmem : r ∈ A := List.mem_of_find?_eq_some hfind
      have haddr : r.address = d.address := by
        have := List.find?_some hfind
        simpa using this
      have hrd : r = d := List.inj_on_of_nodup_map h hmem hd haddr
      simp [classifyDesired, findByAddress, hfind, hrd]
  have h2 : A.filterMap (classifyCurrent A) = [] := by
    rw [List.filterMap_eq_nil_iff]
    intro c hc
    have hex : A.any (fun d => d.address == c.address) = true := by
      rw [List.any_eq_true]
      exact ⟨c, hc, by simp⟩
    simp [classifyCurrent, hex]
  rw [h1, h2]
  rfl

/-- Claim C5 witness: a concrete snapshot reconciled against itself. -/
theorem getDiffChanges_self_witness :
    getDiffChanges [Resource.mk "a" (1 : Nat), Resource.mk "b" 2]
      [Resource.mk "a" (1 : Nat), Resource.mk "b" 2] = [] :=
  getDiffChanges_self _ (by decide)

/-- The plugin-defined default OpenTofu version from the tool registry
source. -/
def defaultOpenTofuVersion : String := "1.9.1"

/-- The install script template constant from the tool registry source
(braces of the Go template placeholders written as character escapes). -/
def installScript : String :=
  "\ncd \x7b\x7b .TmpDir \x7d\x7d\ncurl -L https://github.com/opentofu/opentofu/releases/download/v\x7b\x7b .Version \x7d\x7d/tofu_\x7b\x7b .Version \x7d\x7d_\x7b\x7b .Os \x7d\x7d_\x7b\x7b .Arch \x7d\x7d.zip -o tofu_\x7b\x7b .Version \x7d\x7d_\x7b\x7b .Os \x7d\x7d_\x7b\x7b .Arch \x7d\x7d.zip\nunzip tofu_\x7b\x7b .Version \x7d\x7d_\x7b\x7b .Os \x7d\x7d_\x7b\x7b .Arch \x7d\x7d.zip\nmv tofu \x7b\x7b .OutPath \x7d\x7d\n"

/-- One request to the underlying tool-registry client's InstallTool. -/
structure InstallToolArgs where
  name : String
  version : String
  script : String
deriving DecidableEq, Repr

/-- Go `cmp.Or` specialized to strings: the first argument unless it is the
zero value (empty string). -/
def cmpOr (x y : String) : String :=
  if x = "" then y else x

/-- The tool registry wraps a client; the client's InstallTool returns a
binary path or an error. -/
structure Registry where
  installTool : InstallToolArgs → Except String String

/-- Embeds `Registry.OpenTofu`: delegate to the client with tool name
"tofu", the given version defaulted through `cmp.Or`, and the install
script, returning the client's result unchanged. -/
def Registry.OpenTofu (r : Registry) (version : String) : Except String String :=
  r.installTool
    { name := "tofu"
      version := cmpOr version defaultOpenTofuVersion
      script := installScript }

/-- Claim C7: `Registry.OpenTofu` requests tool "tofu" at the default
version "1.9.1" when the given version is empty and at exactly the given
version otherwise, and returns precisely the underlying InstallTool
result. -/
theorem Registry.OpenTofu_spec (r : Registry) (version : String) :
    r.OpenTofu version
      = r.installTool
          { name := "tofu"
            version := if version = "" then defaultOpenTofuVersion else version
            script := installScript }
    ∧ defaultOpenTofuVersion = "1.9.1" := by
  refine ⟨?_, rfl⟩
  by_cases h : version = "" <;> simp [Registry.OpenTofu, cmpOr, h]

/-- sdk.StageStatus restricted to the two terminal values this plugin
returns. -/
inductive StageStatus where
  | success
  | failure
deriving DecidableEq, Repr

/-- Outcome of an os.Stat probe: file present, absent (os.IsNotExist holds
of the error), or some other stat error. -/
inductive FileStat where
  | present
  | notExist
  | statErr (msg : String)
deriving DecidableEq, Repr

/-- Observable external actions of one executeStage run: a tool-registry
installation request, an external tofu command run, or a successfully
persisted plan-file metadata write. -/
inductive Event where
  | toolInstall (version : String)
  | runCmd (command : String) (args : List String)
  | saveMetadata (path : String) (content : String)
deriving DecidableEq, Repr

/-- Models filepath.Join on the two-component joins used by the plugin
(path cleaning is irrelevant to the claims). -/
def pathJoin (a b : String) : String :=
  if a = "" then b else a ++ "/" ++ b

/-- The shared plan-file directory constant of the metadata variant. -/
def planFileDir : String := "/tmp/tofu-plans"

/-- Embeds `getPlanFileMetadataPath`: the metadata file for a deployment,
keyed by the deployment identifier. -/
def getPlanFileMetadataPath (deploymentID : String) : String :=
  pathJoin planFileDir ("metadata_" ++ deploymentID ++ ".json")

/-- Responses of the outside world (tool registry, filesystem, external
commands) consulted during one executeStage run.  Each function gives the
result the corresponding Go call would return. -/
structure ExecEnv where
  installResult : String → Except String String
  fileStat : String → FileStat
  runCommand : String → List String → Except String String
  readDir : String → Except String (List String)
  mkdirOk : Bool
  readFile : String → Except String String
  writeOk : Bool

/-- The fields of the executeStage input and application spec read by
either variant of executeStage. -/
structure StageInput where
  stageName : String
  applicationID : String
  deploymentID : String
  appDir : String
  workingDir : String
  configFile : String
  version : String
deriving DecidableEq, Repr

/-- Status, returned Go error, and trace of one executeStage run. -/
structure ExecResult where
  status : StageStatus
  error : Option String
  events : List Event
deriving DecidableEq, Repr

/-- The final command run of plan.go's executeStage, shared by its plan and
apply branches: run the command, map a non-zero exit to stage failure. -/
def runStageCommand (env : ExecEnv) (evs : List Event) (command : String)
    (args : List String) : ExecResult :=
  match env.runCommand command args with
  | .error e =>
    { status := StageStatus.failure
      error := some ("failed to execute stage: " ++ e)
      events := evs ++ [Event.runCmd command args] }
  | .ok _ =>
    { status := StageStatus.success
      error := none
      events := evs ++ [Event.runCmd command args] }

/-- Embeds `executeStage` from deployment/plan.go: acquire the tool via the
registry, check that the declared configuration file exists, run init, then
run plan (writing a plan file named from the application id) or apply
(after checking the plan file exists), failing on an unknown stage name. -/
def executeStagePlanGo (env : ExecEnv) (input : StageInput) : ExecResult :=
  match env.installResult input.version with
  | .error e =>
    { status := StageStatus.failure
      error := some ("failed to get OpenTofu binary: " ++ e)
      events := [Event.toolInstall input.version] }
  | .ok _ =>
    if env.fileStat (pathJoin input.workingDir input.configFile) = FileStat.notExist then
      { status := StageStatus.failure
        error := some ("configuration file "
          ++ pathJoin input.workingDir input.configFile ++ " does not exist")
        events := [Event.toolInstall input.version] }
    else
      match env.runCommand "init" [] with
      | .error e =>
        { status := StageStatus.failure
          error := some ("failed to execute OpenTofu init: " ++ e)
          events := [Event.toolInstall input.version, Event.runCmd "init" []] }
      | .ok _ =>
        if input.stageName = stageOpenTofuPlan then
          runStageCommand env [Event.toolInstall input.version, Event.runCmd "init" []]
            "plan" ["-out=" ++ ("tfplan-" ++ input.applicationID)]
        else if input.stageName = stageOpenTofuApply then
          if env.fileStat (pathJoin input.workingDir ("tfplan-" ++ input.applicationID))
              = FileStat.notExist then
            { status := StageStatus.failure
              error := some ("plan file " ++ ("tfplan-" ++ input.applicationID)
                ++ " does not exist, run plan first")
              events := [Event.toolInstall input.version, Event.runCmd "init" []] }
          else
            runStageCommand env [Event.toolInstall input.version, Event.runCmd "init" []]
              "apply" ["tfplan-" ++ input.applicationID]
        else
          { status := StageStatus.failure
            error := some ("unknown stage: " ++ input.stageName)
            events := [Event.toolInstall input.version, Event.runCmd "init" []] }

/-- The final command run of the metadata variant's executeStage: run the
command and, on success of the plan stage, persist the plan-file path under
the deployment-keyed metadata path (the saveMetadata event records a
successful os.WriteFile). -/
def part004FinishStage (env : ExecEnv) (input : StageInput) (evs : List Event)
    (command : String) (args : List String) (planFile : String) : ExecResult :=
  match env.runCommand command args with
  | .error e =>
    { status := StageStatus.failure
      error := some ("failed to execute stage: " ++ e)
      events := evs ++ [Event.runCmd command args] }
  | .ok _ =>
    if input.stageName = stageOpenTofuPlan then
      if env.writeOk then
        { status := StageStatus.success
          error := none
          events := evs ++ [Event.runCmd command args]
            ++ [Event.saveMetadata (getPlanFileMetadataPath input.deploymentID) planFile] }
      else
        { status := StageStatus.failure
          error := some "failed to save plan file metadata"
          events := evs ++ [Event.runCmd command args] }
    else
      { status := StageStatus.success
        error := none
        events := evs ++ [Event.runCmd command args] }

/-- Embeds the metadata-file variant of executeStage (src/unnamed/part_004):
create the shared plan directory, resolve the working directory against the
application directory, list it, check the declared configuration file,
acquire the tool, run init, then either run plan into a shared
deployment-derived plan file and persist its path under the
deployment-keyed metadata file, or, for apply, load the plan-file path from
that metadata file and run apply on it, failing on an unknown stage name.
(The Go nil-pointer check on the application configuration has no
counterpart: the configuration is passed by value here.) -/
def executeStageMeta (env : ExecEnv) (input : StageInput) : ExecResult :=
  if env.mkdirOk then
    let absWorkingDir := pathJoin input.appDir
      (if input.workingDir = "" then "." else input.workingDir)
    match env.readDir absWorkingDir with
    | .error e =>
      { status := StageStatus.failure
        error := some ("failed to read working directory: " ++ e)
        events := [] }
    | .ok _ =>
      match env.fileStat (pathJoin absWorkingDir input.configFile) with
      | .notExist =>
        { status := StageStatus.failure
          error := some ("configuration file " ++ pathJoin absWorkingDir input.configFile
            ++ " does not exist")
          events := [] }
      | .statErr e =>
        { status := StageStatus.failure
          error := some ("error checking configuration file "
            ++ pathJoin absWorkingDir input.configFile ++ ": " ++ e)
          events := [] }
      | .present =>
        match env.installResult input.version with
        | .error e =>
          { status := StageStatus.failure
            error := some ("failed to get OpenTofu binary: " ++ e)
            events := [Event.toolInstall input.version] }
        | .ok _ =>
          match env.runCommand "init" [] with
          | .error e =>
            { status := StageStatus.failure
              error := some ("failed to execute OpenTofu init: " ++ e)
              events := [Event.toolInstall input.version, Event.runCmd "init" []] }
          | .ok _ =>
            let planFile := pathJoin planFileDir ("tfplan-" ++ input.applicationID)
            if input.stageName = stageOpenTofuPlan then
              part004FinishStage env input
                [Event.toolInstall input.version, Event.runCmd "init" []]
                "plan" ["-out=" ++ planFile] planFile
            else if input.stageName = stageOpenTofuApply then
              match env.readFile (getPlanFileMetadataPath input.deploymentID) with
              | .error e =>
                { status := StageStatus.failure
                  error := some ("failed to load plan file metadata: " ++ e)
                  events := [Event.toolInstall input.version, Event.runCmd "init" []] }
              | .ok planFilePath =>
                if planFilePath = "" then
                  { status := StageStatus.failure
                    error := some "empty plan file path retrieved from metadata file"
                    events := [Event.toolInstall input.version, Event.runCmd "init" []] }
                else if env.fileStat planFilePath = FileStat.notExist then
                  { status := StageStatus.failure
                    error := some ("plan file " ++ planFilePath
                      ++ " does not exist, run plan first")
                    events := [Event.toolInstall input.version, Event.runCmd "init" []] }
                else
                  part004FinishStage env input
                    [Event.toolInstall input.version, Event.runCmd "init" []]
                    "apply" [planFilePath] planFile
            else
              { status := StageStatus.failure
                error := some ("unknown stage: " ++ input.stageName)
                events := [Event.toolInstall input.version, Event.runCmd "init" []] }
  else
    { status := StageStatus.failure
      error := some "failed to create plan file directory"
      events := [] }

/-- A test environment in which tool installation succeeds, every stat
probe reports the file absent, every command succeeds, and no persisted
metadata exists. -/
def envConfigMissing : ExecEnv :=
  { installResult := fun _ => Except.ok "/bin/tofu"
    fileStat := fun _ => FileStat.notExist
    runCommand := fun _ _ => Except.ok ""
    readDir := fun _ => Except.ok []
    mkdirOk := true
    readFile := fun _ => Except.error "open: no such file"
    writeOk := true }

/-- A concrete plan-stage input. -/
def inputPlanStage : StageInput :=
  { stageName := "OPEN_TOFU_PLAN"
    applicationID := "app-1"
    deploymentID := "dep-1"
    appDir := "/repo/app"
    workingDir := "wd"
    configFile := "main.tf"
    version := "1.6.0" }

/-- Claim C2 (counterexample): in the deployment/plan.go variant the tool is
acquired from the registry before the configuration file is checked, so a
stage whose configuration file does not exist still performs tool
acquisition: at a concrete input the run fails with the configuration-class
error yet its trace contains the tool-installation request. -/
theorem executeStage_config_missing_cex :
    (executeStagePlanGo envConfigMissing inputPlanStage).status = StageStatus.failure
    ∧ (executeStagePlanGo envConfigMissing inputPlanStage).error
        = some "configuration file wd/main.tf does not exist"
    ∧ Event.toolInstall "1.6.0" ∈ (executeStagePlanGo envConfigMissing inputPlanStage).events := by
  refine ⟨rfl, by decide, by decide⟩

/-- Claim C2 (amended): when the declared configuration file does not exist,
both executeStage variants return StageStatusFailure with the
configuration-class error and execute no external command at all; the
metadata variant (whose check precedes tool acquisition) performs no tool
acquisition either, while the plan.go variant has already requested the tool
from the registry before the check. -/
theorem executeStage_config_missing (env : ExecEnv) (input : StageInput)
    (hmk : env.mkdirOk = true)
    (hdir : ∃ fs, env.readDir (pathJoin input.appDir
      (if input.workingDir = "" then "." else input.workingDir)) = Except.ok fs)
    (hcfgM : env.fileStat (pathJoin (pathJoin input.appDir
        (if input.workingDir = "" then "." else input.workingDir)) input.configFile)
      = FileStat.notExist)
    (hinst : ∃ p, env.installResult input.version = Except.ok p)
    (hcfgP : env.fileStat (pathJoin input.workingDir input.configFile) = FileStat.notExist) :
    (executeStagePlanGo env input).status = StageStatus.failure
    ∧ (executeStagePlanGo env input).error
        = some ("configuration file " ++ pathJoin input.workingDir input.configFile
          ++ " does not exist")
    ∧ (∀ c args, Event.runCmd c args ∉ (executeStagePlanGo env input).events)
    ∧ Event.toolInstall input.version ∈ (executeStagePlanGo env input).events
    ∧ (executeStageMeta env input).status = StageStatus.failure
    ∧ (executeStageMeta env input).error
        = some ("configuration file " ++ pathJoin (pathJoin input.appDir
            (if input.workingDir = "" then "." else input.workingDir)) input.configFile
          ++ " does not exist")
    ∧ (executeStageMeta env input).events = [] := by
  obtain ⟨p, hp⟩ := hinst
  obtain ⟨fs, hfs⟩ := hdir
  refine ⟨?_, ?_, ?_, ?_, ?_, ?_, ?_⟩ <;>
    simp [executeStagePlanGo, executeStageMeta, hp, hfs, hmk, hcfgM, hcfgP]

/-- Claim C2 witness: the amended theorem applied at the concrete
environment and input. -/
theorem executeStage_config_missing_witness :
    (executeStagePlanGo envConfigMissing inputPlanStage).status = StageStatus.failure
    ∧ (∀ c args, Event.runCmd c args ∉ (executeStagePlanGo envConfigMissing inputPlanStage).events)
    ∧ (executeStageMeta envConfigMissing inputPlanStage).status = StageStatus.failure
    ∧ (executeStageMeta envConfigMissing inputPlanStage).events = [] := by
  have h := executeStage_config_missing envConfigMissing inputPlanStage rfl
    ⟨[], rfl⟩ rfl ⟨"/bin/tofu", rfl⟩ rfl
  exact ⟨h.1, h.2.2.1, h.2.2.2.2.1, h.2.2.2.2.2.2⟩

/-- A concrete apply-stage input. -/
def inputApplyStage : StageInput :=
  { stageName := "OPEN_TOFU_APPLY"
    applicationID := "app-1"
    deploymentID := "dep-1"
    appDir := "/repo/app"
    workingDir := "wd"
    configFile := "main.tf"
    version := "1.6.0" }

/-- Claim C8: in the metadata variant, a successful plan stage persists the
generated plan-file path under the metadata path keyed by the deployment
identifier; the apply stage of the same deployment looks the artifact up
under that same stable key (never re-running plan), and when nothing is
persisted there it returns StageStatusFailure without executing the apply
command.  In the plan.go variant the plan artifact is likewise keyed by a
stable field of the deployment record (the application identifier) and a
missing plan file fails the apply stage before the apply command runs. -/
theorem planPersistence_spec (env : ExecEnv) (ip ia : StageInput) (e : String)
    (hplan : ip.stageName = stageOpenTofuPlan)
    (happly : ia.stageName = stageOpenTofuApply)
    (hmeta : env.readFile (getPlanFileMetadataPath ia.deploymentID) = Except.error e)
    (hpfile : env.fileStat (pathJoin ia.workingDir ("tfplan-" ++ ia.applicationID))
      = FileStat.notExist) :
    ((executeStageMeta env ip).status = StageStatus.success →
      Event.saveMetadata (getPlanFileMetadataPath ip.deploymentID)
          (pathJoin planFileDir ("tfplan-" ++ ip.applicationID))
        ∈ (executeStageMeta env ip).events)
    ∧ (executeStageMeta env ia).status = StageStatus.failure
    ∧ (∀ args, Event.runCmd "apply" args ∉ (executeStageMeta env ia).events)
    ∧ (∀ args, Event.runCmd "plan" args ∉ (executeStageMeta env ia).events)
    ∧ (executeStagePlanGo env ia).status = StageStatus.failure
    ∧ (∀ args, Event.runCmd "apply" args ∉ (executeStagePlanGo env ia).events) := by
  refine ⟨?_, ?_, ?_, ?_, ?_, ?_⟩
  · simp only [executeStageMeta, part004FinishStage, hplan]
    repeat' split
    all_goals intro hs
    all_goals simp_all [stageOpenTofuPlan, stageOpenTofuApply]
  · simp only [executeStageMeta, happly]
    repeat' split
    all_goals simp_all [stageOpenTofuPlan, stageOpenTofuApply, hmeta]
  · intro args
    simp only [executeStageMeta, happly]
    repeat' split
    all_goals simp_all [stageOpenTofuPlan, stageOpenTofuApply, hmeta]
  · intro args
    simp only [executeStageMeta, happly]
    repeat' split
    all_goals simp_all [stageOpenTofuPlan, stageOpenTofuApply, hmeta]
  · simp only [executeStagePlanGo, happly]
    repeat' split
    all_goals simp_all [stageOpenTofuPlan, stageOpenTofuApply, hpfile]
  · intro args
    simp only [executeStagePlanGo, happly]
    repeat' split
    all_goals simp_all [stageOpenTofuPlan, stageOpenTofuApply, hpfile]

/-- Claim C8 witness: the theorem applied at the concrete environment with
no persisted metadata and no plan file. -/
theorem planPersistence_spec_witness :
    (executeStageMeta envConfigMissing inputApplyStage).status = StageStatus.failure
    ∧ (executeStagePlanGo envConfigMissing inputApplyStage).status = StageStatus.failure := by
  have h := planPersistence_spec envConfigMissing inputPlanStage inputApplyStage
    "open: no such file" rfl rfl rfl rfl
  exact ⟨h.2.1, h.2.2.2.2.1⟩

/-- An environment in which every external call succeeds and every file is
present. -/
def envAllOk : ExecEnv :=
  { installResult := fun _ => Except.ok "/bin/tofu"
    fileStat := fun _ => FileStat.present
    runCommand := fun _ _ => Except.ok "done"
    readDir := fun _ => Except.ok []
    mkdirOk := true
    readFile := fun _ => Except.ok "/tmp/tofu-plans/tfplan-app-1"
    writeOk := true }

/-- A concrete input whose stage name is outside fetchDefinedStages. -/
def inputUnknownStage : StageInput :=
  { stageName := "WAIT_APPROVAL"
    applicationID := "app-1"
    deploymentID := "dep-1"
    appDir := "/repo/app"
    workingDir := "wd"
    configFile := "main.tf"
    version := "1.6.0" }

/-- Claim C10: for every stage name outside the set returned by
fetchDefinedStages, executeStage (deployment/plan.go) returns
StageStatusFailure and runs neither the plan nor the apply command; when
tool acquisition, the configuration check, and init all succeed, the
reported error is the "unknown stage" error. -/
theorem executeStage_unknown_stage (env : ExecEnv) (input : StageInput)
    (h : input.stageName ∉ fetchDefinedStages) :
    (executeStagePlanGo env input).status = StageStatus.failure
    ∧ (∀ args, Event.runCmd "plan" args ∉ (executeStagePlanGo env input).events)
    ∧ (∀ args, Event.runCmd "apply" args ∉ (executeStagePlanGo env input).events)
    ∧ (∀ p o, env.installResult input.version = Except.ok p →
        env.fileStat (pathJoin input.workingDir input.configFile) ≠ FileStat.notExist →
        env.runCommand "init" [] = Except.ok o →
        (executeStagePlanGo env input).error
          = some ("unknown stage: " ++ input.stageName)) := by
  have h1 : ¬ input.stageName = stageOpenTofuPlan := fun hx =>
    h (by simp [fetchDefinedStages, hx])
  have h2 : ¬ input.stageName = stageOpenTofuApply := fun hx =>
    h (by simp [fetchDefinedStages, hx])
  refine ⟨?_, ?_, ?_, ?_⟩
  · simp only [executeStagePlanGo]
    repeat' split
    all_goals simp_all
  · intro args
    simp only [executeStagePlanGo]
    repeat' split
    all_goals simp_all
  · intro args
    simp only [executeStagePlanGo]
    repeat' split
    all_goals simp_all
  · intro p o hp hc hi
    simp [executeStagePlanGo, hp, hi, hc, h1, h2]

/-- Claim C10 witness: an unknown stage name in the all-successful
environment. -/
theorem executeStage_unknown_stage_witness :
    (executeStagePlanGo envAllOk inputUnknownStage).status = StageStatus.failure
    ∧ (executeStagePlanGo envAllOk inputUnknownStage).error
        = some "unknown stage: WAIT_APPROVAL" := by
  have h := executeStage_unknown_stage envAllOk inputUnknownStage (by decide)
  refine ⟨h.1, ?_⟩
  have h4 := h.2.2.2 "/bin/tofu" "done" rfl (by decide) rfl
  simpa [inputUnknownStage] using h4

end OpenTofuProof
